import Mathlib

/-!
Shallow embedding of the `minion` agent of the gru repository
(`src/minion/etcd.go`), together with theorems settling the frozen
claims about it.  Every definition below is translated from the Go
source; where a claim depends on code outside `src/` (the external
backoff generator), the definition is modelled from the specification
and says so in its doc comment.
-/

namespace Gru

/-- Task states, from the `task` package constants used by `etcd.go`
(`TaskStateQueued`, `TaskStateProcessing`, `TaskStateSuccess`,
`TaskStateFailed`; `unknown` is the zero value). -/
inductive TaskState where
  | unknown
  | queued
  | processing
  | success
  | failed
deriving DecidableEq, Repr

/-- Numeric progression rank of a task state: `queued → processing →
terminal`.  Both terminal states rank equally. -/
def stateRank : TaskState → Nat
  | .unknown => 0
  | .queued => 1
  | .processing => 2
  | .success => 3
  | .failed => 3

/-- The fields of `task.Task` that `etcd.go` reads or writes.  The
catalog itself is opaque; its observable behaviour (resource count,
run output, success) lives in `CatalogEnv`. -/
structure Task where
  taskID : String
  isConcurrent : Bool
  state : TaskState
  timeReceived : Int
  timeProcessed : Int
  result : String
deriving DecidableEq, Repr

/-- Environment for one task execution: what the opaque
`t.Catalog.Run` / `t.Catalog.Len()` calls and the `time.Now().Unix()`
calls return. -/
structure CatalogEnv where
  runOk : Bool
  runOutput : String
  resourceCount : Nat
  nowReceived : Int
  nowProcessed : Int
deriving DecidableEq, Repr

/-- An etcd node as consumed by the minion: `node.Key` and
`node.Value`. -/
structure EtcdNode where
  key : String
  value : String
deriving DecidableEq, Repr

/-- The part of an etcd Get response that `checkQueue` reads:
`resp.Node.Nodes`, the list of children of the queue directory. -/
structure EtcdResponse where
  nodes : List EtcdNode
deriving DecidableEq, Repr

/-- Errors returned by the etcd KeysAPI, as `checkQueue` inspects
them: `etcd c` is a value implementing the `etcdclient.Error`
interface with `Code = c` (the type assertion `err.(etcdclient.Error)`
succeeds); `transport` is any other error value (e.g. a
`*ClusterError` for an unreachable cluster), for which the assertion
fails. -/
inductive KVError where
  | etcd (code : Nat)
  | transport
deriving DecidableEq, Repr

/-- `etcdclient.ErrorCodeKeyNotFound` (etcd error code 100). -/
def errorCodeKeyNotFound : Nat := 100

/-- `etcdclient.ErrorCodeRaftInternal` (etcd error code 300), a
representative etcd-typed error that is not key-not-found. -/
def errorCodeRaftInternal : Nat := 300

/-- Whether the shared task channel `m.taskQueue` is still open or has
been closed by `Stop`. -/
inductive ChanStatus where
  | isOpen
  | isClosed
deriving DecidableEq, Repr

/-- Observable effects the minion issues, in program order: KV deletes
of queue entries, sends on the task channel, `SaveTaskResult` writes
to the log, and the periodic jobs. -/
inductive Op where
  | kvDelete (key : String)
  | send (t : Task)
  | save (t : Task)
  | classifyRun
  | checkQueueRun
  | setLastseenOp (s : Int)
deriving DecidableEq, Repr

/-- Whether an effect is a KV delete. -/
def Op.isKvDelete : Op → Bool
  | .kvDelete _ => true
  | _ => false

/-- Result of one `checkQueue` call: `done res tr` means the function
returned the Go error `res` (`none` = nil) after issuing the effects
`tr`; `panicked` means a runtime panic occurred after the effects
`tr`. -/
inductive CQResult where
  | done (res : Option KVError) (trace : List Op)
  | panicked (msg : String) (trace : List Op)
deriving DecidableEq, Repr

/-- The drain loop of `checkQueue` (etcd.go lines 113-122).  For each
backlog node, in order: `t, err := EtcdUnmarshalTask(node)` (the
decoder `dec` stands for `json.Unmarshal` on `node.Value`), then
`m.kapi.Delete(node.Key)` unconditionally, then `continue` on a decode
error, else the plain send `m.taskQueue <- t`.  A plain send on a
closed Go channel panics; on an open (unbuffered) channel it blocks
until the runner receives, which we model as succeeding. -/
def drainBacklog (dec : String → Except String Task) (ch : ChanStatus) :
    List EtcdNode → List Op → CQResult
  | [], acc => .done none acc
  | node :: rest, acc =>
    match dec node.value, ch with
    | .error _, _ => drainBacklog dec ch rest (acc ++ [.kvDelete node.key])
    | .ok _, .isClosed => .panicked "send on closed channel" (acc ++ [.kvDelete node.key])
    | .ok t, .isOpen => drainBacklog dec ch rest (acc ++ [.kvDelete node.key, .send t])

/-- `checkQueue` (etcd.go lines 90-125).  `getResult` is the outcome
of `m.kapi.Get(ctx, m.queueDir, opts)`; on error the response pointer
is nil.  The Go error branch reads
`if eerr, ok := err.(etcdclient.Error); !ok || eerr.Code == etcdclient.ErrorCodeKeyNotFound { return err }`,
so a non-etcd-typed error or a key-not-found etcd error is returned to
the caller, while any other etcd-typed error falls through to
`backlog := resp.Node.Nodes`, dereferencing the nil response. -/
def checkQueue (dec : String → Except String Task) (ch : ChanStatus)
    (getResult : Except KVError EtcdResponse) : CQResult :=
  match getResult with
  | .error e =>
    match e with
    | .transport => .done (some .transport) []
    | .etcd c =>
      if c == errorCodeKeyNotFound then .done (some (.etcd c)) []
      else .panicked "nil pointer dereference" []
  | .ok resp =>
    if resp.nodes.length == 0 then .done none []
    else drainBacklog dec ch resp.nodes []

/-- ASCII lowercasing of one character, the effect of Go's
`strings.ToLower` on an ASCII letter. -/
def asciiLowerChar (c : Char) : Char :=
  if 'A' ≤ c ∧ c ≤ 'Z' then Char.ofNat (c.toNat + 32) else c

/-- ASCII lowercasing of a string, character by character. -/
def asciiLower (s : String) : String := ⟨s.data.map asciiLowerChar⟩

/-- The watcher's delete-event test (etcd.go lines 293-294):
`action := strings.ToLower(resp.Action); strings.EqualFold(action, "delete")`.
Against the fixed ASCII literal `"delete"` Go's Unicode simple
case-folding coincides with ASCII lowercasing (no non-ASCII rune
folds to `d`, `e`, `l` or `t`), so the composite test is exactly
ASCII-case-insensitive equality with `"delete"`. -/
def isDeleteAction (action : String) : Bool := asciiLower action == "delete"

/-- Result of handling one delivered watch event: `next sub tr` means
the loop continues, having submitted `sub` (if any) to the task
channel and issued the effects `tr`; `panicked` means a runtime
panic. -/
inductive HandleResult where
  | next (submitted : Option Task) (trace : List Op)
  | panicked (msg : String) (trace : List Op)
deriving DecidableEq, Repr

/-- The event-handling tail of the `TaskListener` loop body (etcd.go
lines 292-309), run after a successful `watcher.Next`.  On a
(case-insensitive) `delete` action: `continue`, nothing issued.
Otherwise: `t, err := EtcdUnmarshalTask(resp.Node)`, then
`m.kapi.Delete(resp.Node.Key)` unconditionally, then `continue` on a
decode error, else the plain send `c <- t` (a panic if `Stop` has
closed the channel). -/
def handleWatchEvent (dec : String → Except String Task) (ch : ChanStatus)
    (action : String) (node : EtcdNode) : HandleResult :=
  if isDeleteAction action then .next none []
  else
    match dec node.value, ch with
    | .error _, _ => .next none [.kvDelete node.key]
    | .ok t, .isOpen => .next (some t) [.kvDelete node.key, .send t]
    | .ok _, .isClosed => .panicked "send on closed channel" [.kvDelete node.key]

/-- Result of one pass of a `for { select { ... } }` loop body:
`next tr` means the body finished and the `for` loop iterates again,
having issued the effects `tr`; `exited tr` means the loop
terminated; `panicked` means a runtime panic. -/
inductive StepResult where
  | next (trace : List Op)
  | exited (trace : List Op)
  | panicked (msg : String) (trace : List Op)
deriving DecidableEq, Repr

/-- `processTask` (etcd.go lines 148-172): set `state = processing`
and save; run the catalog into a buffer seeded with the
`"Loaded %d resources from catalog"` header; record
`time-processed` and `result`; set the terminal state from the run's
error; save again.  Returns the updated task, the `SaveTaskResult`
effects in program order, and whether the catalog run succeeded (the
function's returned error is nil exactly when it did). -/
def processTask (env : CatalogEnv) (t : Task) : Task × List Op × Bool :=
  let t1 : Task := { t with state := .processing }
  let buf : String :=
    "Loaded " ++ Nat.repr env.resourceCount ++ " resources from catalog" ++ env.runOutput
  let t2 : Task := { t1 with timeProcessed := env.nowProcessed, result := buf }
  let t3 : Task := { t2 with state := if env.runOk then .success else .failed }
  (t3, [Op.save t1, Op.save t3], env.runOk)

/-- The select cases of the `TaskRunner` loop (etcd.go lines 318-332):
either the closed `done` channel is ready, or a value was received
from the task channel.  After `Stop` closes the task channel, a
receive on it yields the zero value of `*task.Task`, i.e. nil, which
we model as `received none`. -/
inductive RunnerEvent where
  | doneReady
  | received (t : Option Task)
deriving DecidableEq, Repr

/-- One iteration of the `TaskRunner` loop body (etcd.go lines
318-332).  In the `done` case the source executes `break`; in Go a
`break` inside a `select` terminates the select statement only, so
control falls to the end of the enclosing `for` body and the loop
iterates again — hence `.next []`, not `.exited`.  In the receive
case the task pointer is dereferenced (`t.State = ...`): nil panics.
Otherwise `state = queued` and `time-received` are set and saved, and
`processTask` runs (spawned when `t.IsConcurrent`, inline otherwise;
either way its effects for this task occur in this program order
after the queued save). -/
def taskRunnerSelect (env : CatalogEnv) (ev : RunnerEvent) : StepResult :=
  match ev with
  | .doneReady => .next []
  | .received none => .panicked "nil pointer dereference" []
  | .received (some t) =>
    let tq : Task := { t with state := .queued, timeReceived := env.nowReceived }
    let pr := processTask env tq
    .next (Op.save tq :: pr.2.1)

/-- The select cases of the `periodicRunner` loop (etcd.go lines
134-144): the closed `done` channel, or a tick of the five-minute
ticker carrying the current time. -/
inductive PeriodicEvent where
  | doneReady
  | tick (now : Int)
deriving DecidableEq, Repr

/-- One iteration of the `periodicRunner` loop body (etcd.go lines
134-144).  The `done` case executes `break`, which in Go terminates
only the `select`, so the `for` loop iterates again (`.next []`).  A
tick runs `m.classify()`, `m.checkQueue()` and
`m.SetLastseen(now.Unix())` in that order. -/
def periodicRunnerSelect : PeriodicEvent → StepResult
  | .doneReady => .next []
  | .tick now => .next [.classifyRun, .checkQueueRun, .setLastseenOp now]

/-- Effects issued by a loop-body step. -/
def stepTrace : StepResult → List Op
  | .next tr => tr
  | .exited tr => tr
  | .panicked _ tr => tr

/-- Effects issued by a watch-event handling step. -/
def handleTrace : HandleResult → List Op
  | .next _ tr => tr
  | .panicked _ tr => tr

/-- Effects issued by a `checkQueue` call. -/
def cqTrace : CQResult → List Op
  | .done _ tr => tr
  | .panicked _ tr => tr

/-- The sequence of task states persisted by the `SaveTaskResult`
effects of a trace, in order. -/
def savedStates (tr : List Op) : List TaskState :=
  tr.filterMap fun op =>
    match op with
    | .save u => some u.state
    | _ => none

/-- The five background workers spawned by `Serve` (etcd.go lines
374-378), in spawn order. -/
inductive Worker where
  | classifyW
  | checkQueueW
  | periodicRunnerW
  | taskRunnerW
  | taskListenerW
deriving DecidableEq, Repr

/-- `Serve` (etcd.go lines 361-383) as a function of the outcomes of
its two initial KV writes: `m.SetName(m.name)` and then
`m.SetLastseen(now)` (`none` = success).  Each failing write makes
`Serve` return that error before any goroutine is spawned; when both
succeed it spawns the five workers and returns nil. -/
def serve (setNameErr setLastseenErr : Option KVError) :
    Option KVError × List Worker :=
  match setNameErr with
  | some e => (some e, [])
  | none =>
    match setLastseenErr with
    | some e => (some e, [])
    | none =>
      (none, [.classifyW, .checkQueueW, .periodicRunnerW, .taskRunnerW, .taskListenerW])

/-- `EtcdMinionSpace` (etcd.go line 25). -/
def etcdMinionSpace : String := "/gru/minion"

/-- The key-prefix fields computed by `NewEtcdMinion` (etcd.go lines
66-69).  `utils.GenerateUUID(name)` lives outside `src/`, so the
derived id is taken as a parameter; on these slash-free components
`filepath.Join` is `"/"`-concatenation. -/
structure EtcdMinionM where
  name : String
  rootDir : String
  queueDir : String
  classifierDir : String
  logDir : String
deriving DecidableEq, Repr

/-- `NewEtcdMinion` key-layout construction (etcd.go lines 66-83),
with the UUID derived from `name` passed in as `id`. -/
def newEtcdMinion (name id : String) : EtcdMinionM :=
  { name := name
  , rootDir := etcdMinionSpace ++ "/" ++ id
  , queueDir := etcdMinionSpace ++ "/" ++ id ++ "/queue"
  , classifierDir := etcdMinionSpace ++ "/" ++ id ++ "/classifier"
  , logDir := etcdMinionSpace ++ "/" ++ id ++ "/log" }

/-- A KV store as observed by readers: key to value. -/
def Store : Type := String → Option String

/-- A successful `kapi.Set(ctx, k, v, opts)` with
`PrevExist = PrevIgnore`: create-or-update of `k` to `v`. -/
def kvSet (store : Store) (k v : String) : Store :=
  fun q => if q = k then some v else store q

/-- `strconv.FormatInt(s, 10)`: base-10 decimal, a leading minus sign
exactly when `s` is negative. -/
def formatInt (s : Int) : String :=
  if s < 0 then "-" ++ Nat.repr (-s).toNat else Nat.repr s.toNat

/-- `SetLastseen` (etcd.go lines 220-233) on the success path of its
single KV round trip: writes `strconv.FormatInt(s, 10)` at
`filepath.Join(m.rootDir, "lastseen")`. -/
def setLastseenStore (m : EtcdMinionM) (s : Int) (store : Store) : Store :=
  kvSet store (m.rootDir ++ "/lastseen") (formatInt s)

/-- Modelled from the spec: the exponential-backoff generator the
watcher configures (etcd.go lines 267-272) is the external
`github.com/dnaeon/backoff` package, not part of this repository.
Spec §4.F: exponential backoff with full jitter, minimum, maximum and
factor; the attempt counter advances on each draw and `Reset` returns
it to the minimum.  Durations are in seconds, as rationals. -/
structure Backoff where
  Min : ℚ
  Max : ℚ
  Factor : ℚ
  Jitter : Bool
  attempt : Nat
deriving DecidableEq, Repr

/-- Modelled from the spec: the duration for attempt `n`.  The
jitter-free value is `Min * Factor ^ n`; with full jitter a uniform
draw `r ∈ [0, 1]` yields `Min + r * (Min * Factor ^ n - Min)`; the
result is capped at `Max`. -/
def forAttempt (b : Backoff) (r : ℚ) (n : Nat) : ℚ :=
  let d : ℚ := b.Min * b.Factor ^ n
  let j : ℚ := if b.Jitter then b.Min + r * (d - b.Min) else d
  min j b.Max

/-- Modelled from the spec: the jitter-free envelope of the backoff
schedule, `Min * Factor ^ n` capped at `Max`. -/
def envelopeFor (b : Backoff) (n : Nat) : ℚ :=
  min (b.Min * b.Factor ^ n) b.Max

/-- Modelled from the spec: `b.Duration()` draws the duration for the
current attempt (with jitter draw `r`) and advances the attempt
counter. -/
def durationStep (b : Backoff) (r : ℚ) : Backoff × ℚ :=
  ({ b with attempt := b.attempt + 1 }, forAttempt b r b.attempt)

/-- Modelled from the spec: `b.Reset()` returns the generator to its
minimum (attempt zero). -/
def resetBackoff (b : Backoff) : Backoff := { b with attempt := 0 }

/-- The generator the watcher constructs (etcd.go lines 267-272):
`Min: 1 * time.Second, Max: 10 * time.Minute, Factor: 2.0,
Jitter: true`, in seconds. -/
def watcherBackoff : Backoff :=
  { Min := 1, Max := 600, Factor := 2, Jitter := true, attempt := 0 }

/-- Outcome of one `watcher.Next(ctx)` call in `TaskListener` (etcd.go
line 280): a transport error, or a delivered event. -/
inductive WatchNext where
  | errorNext
  | eventNext (action : String) (node : EtcdNode)
deriving DecidableEq, Repr

/-- The backoff bookkeeping of one `TaskListener` iteration (etcd.go
lines 280-290): on error, `duration := b.Duration()` (jitter draw
`r`), sleep for it, `continue`; on a delivered event, `b.Reset()` and
no sleep. -/
def listenerBackoffStep (b : Backoff) (r : ℚ) : WatchNext → Backoff × Option ℚ
  | .errorNext => ((durationStep b r).1, some (durationStep b r).2)
  | .eventNext _ _ => (resetBackoff b, none)

/-- The per-task removal/processing property of claim C6, over an
effect trace: the trace begins with the KV delete of the queue entry
`k`, contains exactly one KV delete in total, and a
`state = processing` log write for the task occurs strictly later. -/
def deleteOnceThenProcessing (taskID k : String) (tr : List Op) : Prop :=
  tr.head? = some (.kvDelete k)
  ∧ (tr.filter Op.isKvDelete).length = 1
  ∧ ∃ j u, 0 < j ∧ tr.get? j = some (.save u)
      ∧ u.state = .processing ∧ u.taskID = taskID

/-- A sample decoded task, used in concrete evaluations. -/
def sampleTask : Task :=
  { taskID := "5a6b1df2-0f54-40e9-8dcf-a1f8a8894b21"
  , isConcurrent := false
  , state := .unknown
  , timeReceived := 0
  , timeProcessed := 0
  , result := "" }

/-- A sample queue node. -/
def sampleNode : EtcdNode :=
  { key := "/gru/minion/abc/queue/item1", value := "payload" }

/-- A sample execution environment. -/
def sampleEnv : CatalogEnv :=
  { runOk := true
  , runOutput := ""
  , resourceCount := 0
  , nowReceived := 1450357761
  , nowProcessed := 1450357762 }

end Gru

namespace Gru

/-- C1: the claim says a key-not-found from the Get on the queue
prefix is swallowed (`checkQueue` returns nil and submits nothing).
The code's inverted error test
(`!ok || eerr.Code == ErrorCodeKeyNotFound → return err`) instead
returns the not-found error to the caller — contradicting the
comment directly above it in the source.  This theorem evaluates the
code at that input: the not-found error is returned, never nil. -/
theorem checkQueue_keyNotFound_returned_as_error :
    (∀ dec ch, checkQueue dec ch (.error (.etcd errorCodeKeyNotFound))
        = .done (some (.etcd errorCodeKeyNotFound)) [])
    ∧ ∀ dec ch tr, checkQueue dec ch (.error (.etcd errorCodeKeyNotFound))
        ≠ .done none tr := by
  refine ⟨fun dec ch => rfl, fun dec ch tr h => ?_⟩
  simp [checkQueue, errorCodeKeyNotFound] at h

/-- C2: the claim says the `TaskRunner` and `periodicRunner` loops
terminate at their next iteration once `done` is closed.  In both
loops the `done` case executes a bare `break` inside `select`, which
in Go terminates only the select statement, so each loop iterates
again (`.next []`) and no input ever produces a graceful exit. -/
theorem done_signal_does_not_exit_loops :
    (∀ env, taskRunnerSelect env .doneReady = .next [])
    ∧ periodicRunnerSelect .doneReady = .next []
    ∧ (∀ env ev tr, taskRunnerSelect env ev ≠ .exited tr)
    ∧ (∀ pe tr, periodicRunnerSelect pe ≠ .exited tr) := by
  refine ⟨fun env => rfl, rfl, ?_, ?_⟩
  · intro env ev tr h
    cases ev with
    | doneReady => simp [taskRunnerSelect] at h
    | received t => cases t <;> simp [taskRunnerSelect] at h
  · intro pe tr h
    cases pe <;> simp [periodicRunnerSelect] at h

/-- C3: the claim says no core operation panics on an expected error
path.  Evaluating the code: an etcd-typed Get error whose code is not
key-not-found (e.g. raft-internal, 300) falls through the inverted
error test to `resp.Node.Nodes` with a nil response, and the
`TaskRunner` dereferences the nil task received from the task channel
after `Stop` closes it — both panic. -/
theorem checkQueue_and_runner_nil_dereference :
    (∀ dec ch, checkQueue dec ch (.error (.etcd errorCodeRaftInternal))
        = .panicked "nil pointer dereference" [])
    ∧ ∀ env, taskRunnerSelect env (.received none)
        = .panicked "nil pointer dereference" [] :=
  ⟨fun _ _ => rfl, fun _ => rfl⟩

/-- C4: the claim says every send into the task channel is guarded by
a select against `done`.  Both send sites are plain sends
(`m.taskQueue <- t`, `c <- t`); evaluating them with the channel
closed by `Stop` and a decodable queue entry, both the backlog
drainer and the watcher panic sending on the closed channel. -/
theorem unguarded_sends_panic_after_stop :
    checkQueue (fun _ => .ok sampleTask) .isClosed (.ok ⟨[sampleNode]⟩)
        = .panicked "send on closed channel" [.kvDelete sampleNode.key]
    ∧ handleWatchEvent (fun _ => .ok sampleTask) .isClosed "set" sampleNode
        = .panicked "send on closed channel" [.kvDelete sampleNode.key] := by
  constructor <;> decide

end Gru

namespace Gru

/-- C5: for one task delivered to the runner, the sequence of states
persisted to its log key is exactly `[queued, processing, success]`
when the catalog run succeeds and `[queued, processing, failed]`
otherwise — in particular a prefix of one of the two — and the
persisted states are strictly increasing in rank, so an earlier state
is never written over a later one. -/
theorem saved_states_progression (env : CatalogEnv) (t : Task) :
    ((∃ r, savedStates (stepTrace (taskRunnerSelect env (.received (some t)))) ++ r
        = [.queued, .processing, .success])
      ∨ (∃ r, savedStates (stepTrace (taskRunnerSelect env (.received (some t)))) ++ r
        = [.queued, .processing, .failed]))
    ∧ List.Chain' (fun a b => stateRank a < stateRank b)
        (savedStates (stepTrace (taskRunnerSelect env (.received (some t))))) := by
  cases h : env.runOk with
  | true =>
    refine ⟨Or.inl ⟨[], ?_⟩, ?_⟩ <;>
      simp [taskRunnerSelect, processTask, stepTrace, savedStates, h, stateRank]
  | false =>
    refine ⟨Or.inr ⟨[], ?_⟩, ?_⟩ <;>
      simp [taskRunnerSelect, processTask, stepTrace, savedStates, h, stateRank]

/-- C6: for a queue entry whose payload decodes, handled either by the
watcher (on a non-delete event) or by the backlog drainer, the
end-to-end effect trace of that task deletes the queue entry exactly
once, as its very first effect, and the `state = processing` log
write happens strictly later: removal precedes execution. -/
theorem queue_delete_once_before_processing
    (dec : String → Except String Task) (node : EtcdNode) (t : Task)
    (env : CatalogEnv) (action : String)
    (hdec : dec node.value = .ok t) (hact : isDeleteAction action = false) :
    deleteOnceThenProcessing t.taskID node.key
      (handleTrace (handleWatchEvent dec .isOpen action node)
        ++ stepTrace (taskRunnerSelect env (.received (some t))))
    ∧ deleteOnceThenProcessing t.taskID node.key
      (cqTrace (checkQueue dec .isOpen (.ok ⟨[node]⟩))
        ++ stepTrace (taskRunnerSelect env (.received (some t)))) := by
  have core : deleteOnceThenProcessing t.taskID node.key
      ([Op.kvDelete node.key, Op.send t]
        ++ stepTrace (taskRunnerSelect env (.received (some t)))) := by
    refine ⟨rfl, ?_, 3,
      { t with state := .processing, timeReceived := env.nowReceived }, ?_, ?_, rfl, rfl⟩
    · simp [taskRunnerSelect, processTask, stepTrace, Op.isKvDelete]
    · norm_num
    · simp [taskRunnerSelect, processTask, stepTrace]
  have hw : handleWatchEvent dec .isOpen action node
      = .next (some t) [.kvDelete node.key, .send t] := by
    simp [handleWatchEvent, hact, hdec]
  have hc : checkQueue dec .isOpen (.ok ⟨[node]⟩)
      = .done none [.kvDelete node.key, .send t] := by
    simp [checkQueue, drainBacklog, hdec]
  constructor
  · rw [hw]; exact core
  · rw [hc]; exact core

/-- Witness for `queue_delete_once_before_processing` at a concrete
decoder, node, task, environment and action. -/
theorem queue_delete_once_before_processing_witness :
    (fun _ : String => (Except.ok sampleTask : Except String Task)) sampleNode.value
        = Except.ok sampleTask
    ∧ isDeleteAction "set" = false
    ∧ deleteOnceThenProcessing sampleTask.taskID sampleNode.key
      (handleTrace (handleWatchEvent (fun _ => .ok sampleTask) .isOpen "set" sampleNode)
        ++ stepTrace (taskRunnerSelect sampleEnv (.received (some sampleTask))))
    ∧ deleteOnceThenProcessing sampleTask.taskID sampleNode.key
      (cqTrace (checkQueue (fun _ => .ok sampleTask) .isOpen (.ok ⟨[sampleNode]⟩))
        ++ stepTrace (taskRunnerSelect sampleEnv (.received (some sampleTask)))) := by
  have h := queue_delete_once_before_processing
    (fun _ => .ok sampleTask) sampleNode sampleTask sampleEnv "set" rfl (by decide)
  exact ⟨rfl, by decide, h.1, h.2⟩

/-- C8: `Serve` returns the `set-name` error (or, when that succeeds,
the `set-lastseen` error) without spawning any worker; when both
writes succeed it spawns exactly the five workers — initial classify,
initial backlog drain, periodic ticker, task runner, queue watcher —
in that order and returns nil. -/
theorem serve_aborts_or_starts_all :
    (∀ e x, serve (some e) x = (some e, []))
    ∧ (∀ e, serve none (some e) = (some e, []))
    ∧ serve none none
        = (none, [.classifyW, .checkQueueW, .periodicRunnerW, .taskRunnerW, .taskListenerW]) :=
  ⟨fun _ _ => rfl, fun _ => rfl, rfl⟩

/-- C9: the watcher ignores events whose action equals `delete` under
case-insensitive comparison (no KV delete, no submission); on any
other event it deletes the node unconditionally, drops the task on a
decode error (queue entry nevertheless deleted), and submits the
decoded task to the channel on success. -/
theorem watch_event_dispatch (dec : String → Except String Task)
    (action : String) (node : EtcdNode) :
    (isDeleteAction action = true →
      ∀ ch, handleWatchEvent dec ch action node = .next none [])
    ∧ (isDeleteAction action = false →
      ∀ e, dec node.value = .error e →
        ∀ ch, handleWatchEvent dec ch action node = .next none [.kvDelete node.key])
    ∧ (isDeleteAction action = false →
      ∀ t, dec node.value = .ok t →
        handleWatchEvent dec .isOpen action node
          = .next (some t) [.kvDelete node.key, .send t]) := by
  refine ⟨?_, ?_, ?_⟩
  · intro h ch
    simp [handleWatchEvent, h]
  · intro h e he ch
    cases ch <;> simp [handleWatchEvent, h, he]
  · intro h t ht
    simp [handleWatchEvent, h, ht]

/-- Witness for `watch_event_dispatch`: a mixed-case `DeLeTe` event is
ignored, a `set` event with an undecodable payload only deletes the
entry, and a `set` event with a decodable payload deletes and
submits. -/
theorem watch_event_dispatch_witness :
    isDeleteAction "DeLeTe" = true
    ∧ handleWatchEvent (fun _ => .error "invalid character") .isOpen "DeLeTe" sampleNode
        = .next none []
    ∧ isDeleteAction "set" = false
    ∧ handleWatchEvent (fun _ => .error "invalid character") .isOpen "set" sampleNode
        = .next none [.kvDelete sampleNode.key]
    ∧ handleWatchEvent (fun _ => .ok sampleTask) .isOpen "set" sampleNode
        = .next (some sampleTask) [.kvDelete sampleNode.key, .send sampleTask] := by
  refine ⟨by decide, ?_, by decide, ?_, ?_⟩
  · exact (watch_event_dispatch (fun _ => .error "invalid character") "DeLeTe" sampleNode).1
      (by decide) .isOpen
  · exact (watch_event_dispatch (fun _ => .error "invalid character") "set" sampleNode).2.1
      (by decide) "invalid character" rfl .isOpen
  · exact (watch_event_dispatch (fun _ => .ok sampleTask) "set" sampleNode).2.2
      (by decide) sampleTask rfl

end Gru

namespace Gru

/-- Counterexample to C7 as stated: with full jitter (which the
watcher enables, `Jitter: true`), the drawn delays are not
non-decreasing.  On three consecutive transport errors with jitter
draws `0`, `9/10`, `0`, the watcher sleeps `1`, `19/10`, `1` seconds:
the third delay is strictly below the second. -/
theorem jittered_delays_can_decrease :
    (durationStep (durationStep (durationStep watcherBackoff 0).1 (9/10)).1 0).2
      < (durationStep (durationStep watcherBackoff 0).1 (9/10)).2
    ∧ (durationStep (durationStep watcherBackoff 0).1 (9/10)).2 = 19/10
    ∧ (durationStep (durationStep (durationStep watcherBackoff 0).1 (9/10)).1 0).2 = 1 := by
  refine ⟨?_, ?_, ?_⟩ <;>
    norm_num [durationStep, forAttempt, watcherBackoff, min_def]

/-- C7 as amended: the watcher's generator has minimum 1 s, maximum
600 s and factor 2; the jitter-free envelope of the schedule is
non-decreasing and stays within `[1, 600]`; every jittered draw lies
between the 1-second minimum and the envelope (hence never exceeds
the 10-minute cap); and after any successful event the generator is
reset, so the next drawn delay is exactly the minimum again, for
every jitter draw. -/
theorem backoff_envelope_monotone_reset_to_min :
    (∀ n, envelopeFor watcherBackoff n ≤ envelopeFor watcherBackoff (n + 1))
    ∧ (∀ n, 1 ≤ envelopeFor watcherBackoff n ∧ envelopeFor watcherBackoff n ≤ 600)
    ∧ (∀ n r, 0 ≤ r → r ≤ 1 →
        1 ≤ forAttempt watcherBackoff r n
        ∧ forAttempt watcherBackoff r n ≤ envelopeFor watcherBackoff n)
    ∧ (∀ n r, (durationStep (resetBackoff { watcherBackoff with attempt := n }) r).2 = 1)
    ∧ (∀ b r action node, listenerBackoffStep b r (.eventNext action node)
        = (resetBackoff b, none)) := by
  have hpow : ∀ n : Nat, (1 : ℚ) ≤ 2 ^ n := by
    intro n
    calc (1 : ℚ) = 2 ^ 0 := (pow_zero 2).symm
    _ ≤ 2 ^ n := by
      apply pow_le_pow_right₀ (by norm_num) (Nat.zero_le n)
  refine ⟨?_, ?_, ?_, ?_, fun b r action node => rfl⟩
  · intro n
    simp only [envelopeFor, watcherBackoff, one_mul]
    refine min_le_min ?_ le_rfl
    apply pow_le_pow_right₀ (by norm_num) (Nat.le_succ n)
  · intro n
    simp only [envelopeFor, watcherBackoff, one_mul]
    exact ⟨le_min (hpow n) (by norm_num), min_le_right _ _⟩
  · intro n r hr0 hr1
    have henv : (1 : ℚ) + r * (2 ^ n - 1) ≤ 2 ^ n := by
      have h1 : r * (2 ^ n - 1) ≤ 2 ^ n - 1 :=
        mul_le_of_le_one_left (by linarith [hpow n]) hr1
      linarith
    have hlow : (1 : ℚ) ≤ 1 + r * (2 ^ n - 1) := by
      have h2 : (0 : ℚ) ≤ r * (2 ^ n - 1) :=
        mul_nonneg hr0 (by linarith [hpow n])
      linarith
    constructor
    · simp only [forAttempt, watcherBackoff, one_mul, if_true]
      exact le_min hlow (by norm_num)
    · simp only [forAttempt, envelopeFor, watcherBackoff, one_mul, if_true]
      exact min_le_min henv le_rfl
  · intro n r
    simp [durationStep, resetBackoff, forAttempt, watcherBackoff, min_def]

/-- Witness for `backoff_envelope_monotone_reset_to_min` at the
jitter draw `1/2` and attempt `4`. -/
theorem backoff_envelope_witness :
    0 ≤ (1/2 : ℚ) ∧ (1/2 : ℚ) ≤ 1
    ∧ 1 ≤ forAttempt watcherBackoff (1/2) 4
    ∧ forAttempt watcherBackoff (1/2) 4 ≤ envelopeFor watcherBackoff 4 := by
  have h := backoff_envelope_monotone_reset_to_min.2.2.1 4 (1/2)
    (by norm_num) (by norm_num)
  exact ⟨by norm_num, by norm_num, h.1, h.2⟩

/-- C10: for non-negative `s`, `SetLastseen(s)` writes exactly the
base-10 decimal representation of `s`, with no sign, at
`<root>/lastseen`; for a minion constructed with name `"Kevin"` (and
any derived id), a KV reader then observes that string at
`/gru/minion/<id>/lastseen`. -/
theorem setLastseen_writes_decimal (id : String) (s : Int) (store : Store)
    (hs : 0 ≤ s) :
    formatInt s = Nat.repr s.toNat
    ∧ setLastseenStore (newEtcdMinion "Kevin" id) s store
        (etcdMinionSpace ++ "/" ++ id ++ "/lastseen") = some (Nat.repr s.toNat) := by
  have hf : formatInt s = Nat.repr s.toNat := by
    simp [formatInt, not_lt.mpr hs]
  refine ⟨hf, ?_⟩
  simp [setLastseenStore, kvSet, newEtcdMinion, hf]

/-- Witness for `setLastseen_writes_decimal`: writing lastseen
`1450357761` makes a reader observe the string `"1450357761"` at the
minion's lastseen key. -/
theorem setLastseen_writes_decimal_witness :
    0 ≤ (1450357761 : Int)
    ∧ setLastseenStore (newEtcdMinion "Kevin" "f4b4bb1f") 1450357761 (fun _ => none)
        ("/gru/minion" ++ "/" ++ "f4b4bb1f" ++ "/lastseen") = some "1450357761" := by
  have h := (setLastseen_writes_decimal "f4b4bb1f" 1450357761 (fun _ => none)
    (by norm_num)).2
  exact ⟨by norm_num, h⟩

end Gru
